import Mathlib

/-!
Verification of the wazo-grandstream2 provisioning plugin
(src/plugins/wazo-grandstream2/1.0.11.48/common.py) against its
natural-language specification.

The plugin's pure logic is shallowly embedded here:

* raw configs (Python dicts mutated in place) become total functions
  from string keys to optional values (`RawConfig`), with `setK` for
  key assignment;
* each enrichment step of `configure` becomes a function
  `RawConfig → Except Err RawConfig`, where `Except.error` models a
  raised Python exception (`KeyError`, `UnboundLocalError`, ...);
* the funckeys dictionary iterated by `iteritems()` becomes an
  association list whose order stands for the (arbitrary) dict
  iteration order;
* the two User-Agent regexes of the device-info extractor become
  deterministic character-list parsers with the same backtracking
  behaviour (the only real choice point of pattern 1 is the optional
  hardware-revision group, and the greedy dot-star of pattern 2 is
  resolved by trying candidate colons right-to-left).
-/

/-- A (parameter-code, value) pair value: the values appended by
`_add_mpk` are either ints (key type code, account index) or strings
(label, key value). -/
inductive PV where
  | int (n : Int)
  | str (s : String)
deriving DecidableEq

/-- One funckey entry of `raw_config[u'funckeys']`: its type name,
its line as parsed by `int(funckey_dict[u'line'])`, an optional label,
and its value. -/
structure FK where
  ftype : String
  line : Int
  label : Option String
  value : String
deriving DecidableEq

/-- Values stored in a raw-config dictionary.  Only the shapes the
plugin actually reads or writes are distinguished.  A sip line is
represented by its password (the only field the plugin touches), so
`u'sip_lines'` holds a list of (line number, password) pairs. -/
inductive Val where
  | vStr (s : String)
  | vInt (n : Int)
  | vBool (b : Bool)
  | vLines (l : List (String × String))
  | vFkeys (l : List (Int × FK))
  | vPairs (l : List (String × PV))
deriving DecidableEq

open Val PV

/-- A raw config: a Python dict from string keys to values, modelled
as a total function into `Option Val` (`none` = key absent). -/
def RawConfig : Type := String → Option Val

/-- Dict assignment `cfg[k] = v`. -/
def setK (k : String) (v : Val) (cfg : RawConfig) : RawConfig :=
  fun q => if q = k then some v else cfg q

/-- A device record; the plugin reads only `mac` and `model`. -/
structure Device where
  mac : Option String
  model : Option String

/-- Python exceptions raised by the embedded code. -/
inductive Err where
  | rawConfigError
  | missingMac
  | keyError (k : String)
  | typeError
  | nameError
deriving DecidableEq

/-- The `FUNCKEY_TYPES` table. -/
def FUNCKEY_TYPES : List (String × Int) :=
  [("speeddial", 0), ("blf", 1), ("park", 9), ("default", 31), ("disabled", -1)]

/-- Membership test and lookup in `FUNCKEY_TYPES`. -/
def lookupFType (t : String) : Option Int :=
  (FUNCKEY_TYPES.find? (fun p => p.1 = t)).map (fun p => p.2)

/-- The `LOCALE` table. -/
def localeLookup (s : String) : Option String :=
  ([("de_DE", "de"), ("es_ES", "es"), ("fr_FR", "fr"), ("fr_CA", "fr"),
    ("it_IT", "it"), ("nl_NL", "nl"), ("en_US", "en")].find?
      (fun p => p.1 = s)).map (fun p => p.2)

/-- The `SIP_TRANSPORTS` table. -/
def sipTransLookup (s : String) : Option String :=
  ([("udp", "UDP"), ("tcp", "TCP"), ("tls", "TlsOrTcp")].find?
      (fun p => p.1 = s)).map (fun p => p.2)

/-- The `DTMF_MODES` table: mode to (in audio, in RTP, in SIP). -/
def dtmfLookup (s : String) : Option (String × String × String) :=
  ([("RTP-in-band", ("Yes", "Yes", "No")),
    ("RTP-out-of-band", ("No", "Yes", "No")),
    ("SIP-INFO", ("No", "No", "Yes"))].find?
      (fun p => p.1 = s)).map (fun p => p.2)

/-- The single entry of the `TZ_NAME` table (`Europe/Paris`). -/
def parisTZ : String := "CET-1CEST-2,M3.5.0/02:00:00,M10.5.0/03:00:00"

/-- Python truthiness of `raw_config.get(k)` results. -/
def truthy : Option Val → Bool
  | none => false
  | some (vStr s) => !(s = "")
  | some (vInt n) => !(n = 0)
  | some (vBool b) => b
  | some (vLines l) => !(l = [])
  | some (vFkeys l) => !(l = [])
  | some (vPairs l) => !(l = [])

/-- Embeds `_check_config`: raises `RawConfigError` unless `u'http_port'` is
a key of the raw config. -/
def check_config (cfg : RawConfig) : Except Err Unit :=
  if cfg "http_port" = none then .error .rawConfigError else .ok ()

/-- Embeds `_check_device`: raises a generic `Exception` unless `u'mac'` is a
key of the device. -/
def check_device (dev : Device) : Except Err Unit :=
  if dev.mac = none then .error .missingMac else .ok ()

/-- The password rewrite of `_check_lines_password` on one line:
`u'autoprov'` becomes the empty password. -/
def clearPw (p : String × String) : String × String :=
  if p.2 = "autoprov" then (p.1, "") else p

/-- Embeds `_check_lines_password`: iterates `raw_config[u'sip_lines']`
(`KeyError` when absent) and blanks every `u'autoprov'` password. -/
def check_lines_password (cfg : RawConfig) : Except Err RawConfig :=
  match cfg "sip_lines" with
  | some (vLines ls) => .ok (setK "sip_lines" (vLines (ls.map clearPw)) cfg)
  | some _ => .error .typeError
  | none => .error (.keyError "sip_lines")

/-- Pure core of `_add_sip_transport`: reads `u'sip_transport'` with
`.get` and writes `u'XX_sip_transport'` when the value is a known
transport. -/
def add_sip_transportP (cfg : RawConfig) : RawConfig :=
  match cfg "sip_transport" with
  | some (vStr s) =>
    match sipTransLookup s with
    | some t => setK "XX_sip_transport" (vStr t) cfg
    | none => cfg
  | _ => cfg

/-- Embeds `_add_sip_transport` (never raises). -/
def add_sip_transport (cfg : RawConfig) : Except Err RawConfig :=
  .ok (add_sip_transportP cfg)

/-- The test `u'timezone' in raw_config and raw_config[u'timezone'] in TZ_NAME`:
the only key of `TZ_NAME` is `u'Europe/Paris'`. -/
def tzKnown : Option Val → Bool
  | some (vStr s) => s = "Europe/Paris"
  | _ => false

/-- Pure core of `_add_timezone`: writes `u'XX_timezone'` when the
configured timezone is in `TZ_NAME`, and otherwise overwrites
`u'timezone'` itself with the Paris TZ string. -/
def add_timezoneP (cfg : RawConfig) : RawConfig :=
  if tzKnown (cfg "timezone") then setK "XX_timezone" (vStr parisTZ) cfg
  else setK "timezone" (vStr parisTZ) cfg

/-- Embeds `_add_timezone` (never raises). -/
def add_timezone (cfg : RawConfig) : Except Err RawConfig :=
  .ok (add_timezoneP cfg)

/-- Pure core of `_add_locale`: reads `u'locale'` with `.get` and
writes `u'XX_locale'` when the locale is known. -/
def add_localeP (cfg : RawConfig) : RawConfig :=
  match cfg "locale" with
  | some (vStr s) =>
    match localeLookup s with
    | some l => setK "XX_locale" (vStr l) cfg
    | none => cfg
  | _ => cfg

/-- Embeds `_add_locale` (never raises). -/
def add_locale (cfg : RawConfig) : Except Err RawConfig :=
  .ok (add_localeP cfg)

/-- Embeds `_add_dtmf_mode`: when `raw_config.get(u'sip_dtmf_mode')` is
truthy, looks the mode up in `DTMF_MODES` (`KeyError` when unknown)
and writes the three `XX_dtmf_in_*` keys. -/
def add_dtmf_mode (cfg : RawConfig) : Except Err RawConfig :=
  if truthy (cfg "sip_dtmf_mode") then
    match cfg "sip_dtmf_mode" with
    | some (vStr s) =>
      match dtmfLookup s with
      | some t =>
        .ok (setK "XX_dtmf_in_sip" (vStr t.2.2)
              (setK "XX_dtmf_in_rtp" (vStr t.2.1)
                (setK "XX_dtmf_in_audio" (vStr t.1) cfg)))
      | none => .error (.keyError s)
    | _ => .error .typeError
  else .ok cfg

/-- The `XX_dns_<n>` writes of `_add_dns`, one per part of the dotted
address, numbered from 1. -/
def writeDns : List String → Nat → RawConfig → RawConfig
  | [], _, cfg => cfg
  | p :: ps, n, cfg => writeDns ps (n + 1) (setK ("XX_dns_" ++ toString n) (vStr p) cfg)

/-- Embeds `_add_dns`: when `raw_config.get(u'dns_enabled')` is truthy,
splits `raw_config[u'dns_ip']` (`KeyError` when absent) on dots and
writes the numbered `XX_dns_*` keys. -/
def add_dns (cfg : RawConfig) : Except Err RawConfig :=
  if truthy (cfg "dns_enabled") then
    match cfg "dns_ip" with
    | some (vStr ip) => .ok (writeDns (ip.splitOn ".") 1 cfg)
    | some _ => .error .typeError
    | none => .error (.keyError "dns_ip")
  else .ok cfg

/-- Embeds `_add_fkeys`: iterates `raw_config[u'funckeys']` (`KeyError` when
absent) with a loop body that is entirely commented out, then sets
`u'XX_fkeys'` to the accumulated (hence empty) list. -/
def add_fkeys (cfg : RawConfig) : Except Err RawConfig :=
  match cfg "funckeys" with
  | some (vFkeys _) => .ok (setK "XX_fkeys" (vPairs []) cfg)
  | some _ => .error .typeError
  | none => .error (.keyError "funckeys")

/-- Embeds `_add_v2_fkeys`: its whole mapping logic is commented out; it
unconditionally sets `u'XX_v2_fkeys'` to the empty list. -/
def add_v2_fkeys (_model : Option String) (cfg : RawConfig) : Except Err RawConfig :=
  .ok (setK "XX_v2_fkeys" (vPairs []) cfg)

/-- The ID computation of the `GXP2160`/`GXP2130` branch of
`_add_mpk`: `(key_mode_id, account_id, name_id, value_id)`.  The
first branch uses step `i - 1` (no factor 4), the other two use step
`4 * (i - 8)` resp. `4 * (i - 19)`. -/
def gsIds (i : Int) : Int × Int × Int × Int :=
  if i < 8 then
    (323 + (i - 1), 301 + (i - 1), 302 + (i - 1), 303 + (i - 1))
  else if i ≤ 18 then
    (353 + (i - 8) * 4, 354 + (i - 8) * 4, 355 + (i - 8) * 4, 356 + (i - 8) * 4)
  else
    (1440 + (i - 19) * 4, 1441 + (i - 19) * 4, 1442 + (i - 19) * 4, 1443 + (i - 19) * 4)

/-- The ID computation of the `GXP2170`/`GXP2140` branch of
`_add_mpk`, with step `(5 * i) - 5`. -/
def gbIds (i : Int) : Int × Int × Int × Int :=
  (23000 + ((5 * i) - 5), 23001 + ((5 * i) - 5),
   23002 + ((5 * i) - 5), 23003 + ((5 * i) - 5))

/-- Formats `P` followed by the id, as `u'P\x7b\x7d'.format(id)` does. -/
def pCode (n : Int) : String := "P" ++ toString n

/-- The optional label pair of one funckey. -/
def labelPairs (nameId : Int) : Option String → List (String × PV)
  | some l => [(pCode nameId, .str l)]
  | none => []

/-- The tail of the `_add_mpk` loop body, shared by all models: skip
the key when its type is unsupported, and otherwise append the
(code, value) pairs.  `ids = none` models the unknown-model fall
through, where `key_mode_id` was never assigned and Python raises
`UnboundLocalError` at its first use. -/
def mpkEmit (ids : Option (Int × Int × Int × Int)) (fk : FK)
    (rest : Except Err (List (String × PV))) : Except Err (List (String × PV)) :=
  match lookupFType fk.ftype with
  | none => rest
  | some t =>
    match ids with
    | none => .error .nameError
    | some q =>
      rest.map (fun tail =>
        (pCode q.1, .int t) :: (pCode q.2.1, .int (fk.line - 1)) ::
          (labelPairs q.2.2.1 fk.label ++ ((pCode q.2.2.2, .str fk.value) :: tail)))

/-- The loop `for funckey_no, funckey_dict in raw_config[u'funckeys']`
loop of `_add_mpk`, over the dict in iteration order.  Out-of-range
indices on `GXP2160`/`GXP2130` execute `break`, which ends the loop
and keeps only the pairs accumulated so far. -/
def addMpkLoop : Option String → List (Int × FK) → Except Err (List (String × PV))
  | _, [] => .ok []
  | model, (i, fk) :: rest =>
    if model = some "GXP2160" ∨ model = some "GXP2130" then
      if model = some "GXP2160" ∧ i > 24 then .ok []
      else if model = some "GXP2130" ∧ i > 8 then .ok []
      else mpkEmit (some (gsIds i)) fk (addMpkLoop model rest)
    else if model = some "GXP2170" ∨ model = some "GXP2140" then
      mpkEmit (some (gbIds i)) fk (addMpkLoop model rest)
    else if model = some "GXP2135" then
      addMpkLoop model rest
    else
      mpkEmit none fk (addMpkLoop model rest)

/-- Embeds `_add_mpk`: runs the loop over `raw_config[u'funckeys']`
(`KeyError` when absent) and stores the result under `u'XX_mpk'`. -/
def add_mpk (model : Option String) (cfg : RawConfig) : Except Err RawConfig :=
  match cfg "funckeys" with
  | some (vFkeys fks) =>
    (addMpkLoop model fks).map (fun l => setK "XX_mpk" (vPairs l) cfg)
  | some _ => .error .typeError
  | none => .error (.keyError "funckeys")

/-- The enrichment pipeline of `configure`, in source order. -/
def enrich (model : Option String) (cfg : RawConfig) : Except Err RawConfig := do
  let c1 ← check_lines_password cfg
  let c2 ← add_sip_transport c1
  let c3 ← add_timezone c2
  let c4 ← add_locale c3
  let c5 ← add_dtmf_mode c4
  let c6 ← add_fkeys c5
  let c7 ← add_mpk model c6
  let c8 ← add_v2_fkeys model c7
  add_dns c8

/-- Embeds `configure(device, raw_config)` up to the final template
rendering/dumping (delegated to host-framework helpers): the two
precondition checks followed by the enrichment pipeline; the returned
config is the one handed to the template dump. -/
def configureF (dev : Device) (cfg : RawConfig) : Except Err RawConfig := do
  let _ ← check_config cfg
  let _ ← check_device dev
  enrich dev.model cfg

/-- Result values of `_do_associate` (`provd.devices.pgasso` constants),
ordered by `supRank`. -/
inductive SupportLevel where
  | improbable
  | unknownSup
  | complete
  | full
deriving DecidableEq

/-- The ordering of the four support levels. -/
def supRank : SupportLevel → Nat
  | .improbable => 0
  | .unknownSup => 1
  | .complete => 2
  | .full => 3

/-- Embeds Python's `version.startswith(pfx)`. -/
def pyStartswith (s pfx : String) : Bool := pfx.data.isPrefixOf s.data

/-- Embeds `BaseGrandstreamPgAssociator._do_associate`, with the
associator's configured `_models` and `_version`. -/
def do_associate (models : List String) (vprefix0 : String)
    (vendor model version : String) : SupportLevel :=
  if vendor = "Grandstream" then
    if model ∈ models then
      if pyStartswith version vprefix0 then .full else .complete
    else .unknownSup
  else .improbable

/-- Word characters of the (ASCII) regex class used by
`re.compile(...)` in Python 2: letters, digits and underscore. -/
def isWordChar (c : Char) : Bool := c.isAlphanum || c = '_'

/-- Maximal run of characters satisfying `p` (the greedy matching of
a character class), returning the run and the rest. -/
def takeRun (p : Char → Bool) : List Char → List Char × List Char
  | [] => ([], [])
  | c :: cs =>
    if p c then
      let r := takeRun p cs
      (c :: r.1, r.2)
    else ([], c :: cs)

/-- Matches a literal character sequence, returning the rest. -/
def dropLit : List Char → List Char → Option (List Char)
  | [], s => some s
  | c :: cs, d :: ds => if c = d then dropLit cs ds else none
  | _ :: _, [] => none

/-- The common literal head of both User-Agent patterns. -/
def LITCOMMON : List Char :=
  ['G', 'r', 'a', 'n', 'd', 's', 't', 'r', 'e', 'a', 'm', ' ']

/-- Rest of the literal head of pattern 1 after `LITCOMMON`. -/
def LIT1TAIL : List Char := ['M', 'o', 'd', 'e', 'l', ' ', 'H', 'W', ' ']

/-- Rest of the literal head of pattern 2 after `LITCOMMON`. -/
def LIT2TAIL : List Char := ['G', 'X', 'P', '2', '0', '0', '0', ' ']

/-- The literal ` DevId ` of both patterns. -/
def LITDEVID : List Char := [' ', 'D', 'e', 'v', 'I', 'd', ' ']

/-- Suffix of pattern 1 after the model group: ` SW ([^ ]+) DevId
([^ ]+)`.  The two character-class groups are forced to their maximal
runs because each is followed by a space (or nothing). -/
def m1Cont (model : List Char) (r : List Char) : Option (String × String × String) := do
  let r1 ← dropLit [' ', 'S', 'W', ' '] r
  let vr := takeRun (fun c => !(c = ' ')) r1
  if vr.1 = [] then none else
  let r3 ← dropLit LITDEVID vr.2
  let mr := takeRun (fun c => !(c = ' ')) r3
  if mr.1 = [] then none else
  some (String.mk model, String.mk vr.1, String.mk mr.1)

/-- Pattern 1, `^Grandstream Model HW (\w+)(?: V[^ ]+)? SW ([^ ]+)
DevId ([^ ]+)`, matched as `re.match` does: the optional
hardware-revision group is tried present first, and on failure of the
whole remainder the absent alternative is tried. -/
def matcher1 (s : List Char) : Option (String × String × String) := do
  let r0 ← dropLit (LITCOMMON ++ LIT1TAIL) s
  let mr := takeRun isWordChar r0
  if mr.1 = [] then none else
  match (do
      let a ← dropLit [' ', 'V'] mr.2
      let vr := takeRun (fun c => !(c = ' ')) a
      if vr.1 = [] then none else m1Cont mr.1 vr.2) with
  | some res => some res
  | none => m1Cont mr.1 mr.2

/-- Suffix of pattern 2 after a candidate colon: `([^ ]+)\) DevId
([^ ]+)`.  The group must be the maximal nonspace run with its final
`)` given back, since any shorter split leaves a nonspace character
where ` DevId ` requires a space. -/
def m2After (t : List Char) : Option (String × String) :=
  let run := takeRun (fun c => !(c = ' ')) t
  match run.1.getLast? with
  | some ')' =>
    let ver := run.1.dropLast
    if ver = [] then none else
    match dropLit LITDEVID run.2 with
    | some r2 =>
      let mr := takeRun (fun c => !(c = ' ')) r2
      if mr.1 = [] then none else some (String.mk ver, String.mk mr.1)
    | none => none
  | _ => none

/-- All suffixes following a colon reachable by `.*` (which cannot
cross a newline), in left-to-right order. -/
def colonTails : List Char → List (List Char)
  | [] => []
  | c :: cs =>
    if c = '\n' then []
    else if c = ':' then cs :: colonTails cs
    else colonTails cs

/-- Pattern 2, `^Grandstream (GXP2000) .*:([^ ]+)\) DevId ([^ ]+)`:
the greedy `.*` makes the rightmost viable colon win. -/
def matcher2 (s : List Char) : Option (String × String × String) := do
  let r0 ← dropLit (LITCOMMON ++ LIT2TAIL) s
  match (colonTails r0).reverse.findSome? m2After with
  | some (ver, mac) => some ("GXP2000", ver, mac)
  | none => none

/-- ASCII hex digit test. -/
def isHexDig (c : Char) : Bool := c.isDigit || ('a' ≤ c && c ≤ 'f')

/-- Joins successive pairs of characters with colons. -/
def groupColon : List Char → List Char
  | a :: b :: c :: rest => a :: b :: ':' :: groupColon (c :: rest)
  | l => l

/-- Modelled from the spec: `norm_mac` comes from the external
`provd.util` module, which is not part of this repository.  The spec
says extraction normalizes the captured MAC and "fails with a
validation error if malformed", and its example maps
`000b8240d55c` to `00:0b:82:40:d5:5c`: a well-formed MAC of twelve
hex digits is lowercased and colon-separated into six octets, and
anything else fails (`none` models the raised `ValueError`). -/
def norm_mac (s : String) : Option String :=
  let cs := s.data.map Char.toLower
  if cs.length = 12 && cs.all isHexDig then
    some (String.mk (groupColon cs))
  else none

/-- A device-info descriptor returned by the extractor. -/
structure DeviceInfo where
  vendor : String
  model : String
  version : String
  mac : String
deriving DecidableEq

/-- The `for UA_REGEX in self._UA_REGEX_LIST` loop of
`_extract_from_ua`: on a match, `norm_mac` is attempted; a
`ValueError` is caught and logged, after which the loop moves on to
the next pattern, and without a match on any pattern the method
returns `None`. -/
def extractLoop : List (List Char → Option (String × String × String)) →
    List Char → Option DeviceInfo
  | [], _ => none
  | rgx :: rest, s =>
    match rgx s with
    | some (m, v, rawMac) =>
      match norm_mac rawMac with
      | some mac => some ⟨"Grandstream", m, v, mac⟩
      | none => extractLoop rest s
    | none => extractLoop rest s

/-- Embeds `BaseGrandstreamHTTPDeviceInfoExtractor._extract_from_ua`. -/
def extract_from_ua (ua : String) : Option DeviceInfo :=
  extractLoop [matcher1, matcher2] ua.data

/-! ### Claim-side (specification) definitions for the MPK arithmetic -/

/-- Following the claim wording: the four parameter IDs (key-mode,
account, label, value) for model `m` and 1-based key index `i`; on
`GXP2160`/`GXP2130` the bases `(323, 301, 302, 303)` each plus
`i - 1` for `1 ≤ i ≤ 7`, `(353, 354, 355, 356)` each plus
`4 * (i - 8)` for `8 ≤ i ≤ 18`, `(1440, 1441, 1442, 1443)` each plus
`4 * (i - 19)` for `i ≥ 19`; on `GXP2170`/`GXP2140` the bases
`(23000, 23001, 23002, 23003)` each plus `5 * (i - 1)`. -/
def claimIds (m : String) (i : Int) : Int × Int × Int × Int :=
  if m = "GXP2160" ∨ m = "GXP2130" then
    if 1 ≤ i ∧ i ≤ 7 then
      (323 + (i - 1), 301 + (i - 1), 302 + (i - 1), 303 + (i - 1))
    else if 8 ≤ i ∧ i ≤ 18 then
      (353 + 4 * (i - 8), 354 + 4 * (i - 8), 355 + 4 * (i - 8), 356 + 4 * (i - 8))
    else
      (1440 + 4 * (i - 19), 1441 + 4 * (i - 19), 1442 + 4 * (i - 19), 1443 + 4 * (i - 19))
  else
    (23000 + 5 * (i - 1), 23001 + 5 * (i - 1), 23002 + 5 * (i - 1), 23003 + 5 * (i - 1))

/-- The pairs that the claim predicts for one funckey entry: the four
(parameter-code, value) pairs with the IDs of `claimIds` (three when
the entry has no label, since the label pair is guarded), and nothing
for an unsupported key type. -/
def claimPairs (m : String) (i : Int) (fk : FK) : List (String × PV) :=
  match lookupFType fk.ftype with
  | none => []
  | some t =>
    (pCode (claimIds m i).1, .int t) ::
      (pCode (claimIds m i).2.1, .int (fk.line - 1)) ::
        (labelPairs (claimIds m i).2.2.1 fk.label ++
          [(pCode (claimIds m i).2.2.2, .str fk.value)])

/-- Concatenation of the per-entry pair lists, in iteration order. -/
def concatMap (f : α → List β) : List α → List β
  | [] => []
  | x :: xs => f x ++ concatMap f xs

/-! ### Helper lemmas -/

theorem getK_set_eq (k : String) (v : Val) (cfg : RawConfig) : setK k v cfg k = some v := by
  simp [setK]

theorem getK_set_ne {q k : String} (h : q ≠ k) (v : Val) (cfg : RawConfig) :
    setK k v cfg q = cfg q := by
  simp [setK, h]

theorem setK_comm {k k2 : String} (h : k ≠ k2) (v v2 : Val) (cfg : RawConfig) :
    setK k v (setK k2 v2 cfg) = setK k2 v2 (setK k v cfg) := by
  funext q
  by_cases h1 : q = k <;> by_cases h2 : q = k2 <;> simp_all [setK]

theorem setK_same {cfg : RawConfig} {k : String} {v : Val} (h : cfg k = some v) :
    setK k v cfg = cfg := by
  funext q
  by_cases h1 : q = k <;> simp_all [setK]

theorem gsIds_eq_claim {m : String} (hm : m = "GXP2160" ∨ m = "GXP2130") {i : Int}
    (h1 : 1 ≤ i) : gsIds i = claimIds m i := by
  unfold gsIds claimIds
  rw [if_pos hm]
  split_ifs <;> simp only [Prod.mk.injEq] <;> omega

theorem gbIds_eq_claim {m : String} (hm : m = "GXP2170" ∨ m = "GXP2140") (i : Int) :
    gbIds i = claimIds m i := by
  have hne : ¬(m = "GXP2160" ∨ m = "GXP2130") := by
    rcases hm with h | h <;> subst h <;> decide
  unfold gbIds claimIds
  rw [if_neg hne]
  simp only [Prod.mk.injEq]
  omega

theorem mpkEmit_claim (m : String) (i : Int) (fk : FK) (L : List (String × PV)) :
    mpkEmit (some (claimIds m i)) fk (.ok L) = .ok (claimPairs m i fk ++ L) := by
  unfold mpkEmit claimPairs
  cases h : lookupFType fk.ftype with
  | none => simp
  | some t => simp [Except.map, List.append_assoc]

/-- A sample supported funckey entry with a label. -/
def fkBlf : FK := ⟨"blf", 1, some "Bob", "100"⟩

/-- C1 counterexample: on `GXP2160`, a funckeys dict whose iteration
order puts the out-of-range index 25 before the in-range index 1
yields no pairs at all, because out-of-range indices execute `break`:
the in-range index 1 (supported type, label present), for which the
claim predicts the four nonempty pairs `claimPairs`, is not
emitted. -/
theorem c1_break_counterexample :
    addMpkLoop (some "GXP2160") [(25, fkBlf), (1, fkBlf)] = .ok [] ∧
    claimPairs "GXP2160" 1 fkBlf ≠ [] := by
  constructor
  · rfl
  · decide

/-- C1 (amended): for the four models with an `_add_mpk` formula,
whenever every index of the funckeys dict is in the model's supported
range (so that no `break` fires), the loop emits, in iteration order
and for every entry with a supported key type, exactly the
(parameter-code, value) pairs whose IDs follow the claimed per-model
arithmetic (`claimIds`): on `GXP2160`/`GXP2130` the bases
`(323, 301, 302, 303) + (i-1)` for `1 ≤ i ≤ 7`,
`(353, 354, 355, 356) + 4*(i-8)` for `8 ≤ i ≤ 18`, and
`(1440, 1441, 1442, 1443) + 4*(i-19)` for `i ≥ 19`; on
`GXP2170`/`GXP2140` the bases `(23000, 23001, 23002, 23003) + 5*(i-1)`.
When an out-of-range index does occur (`i > 24` on GXP2160, `i > 8`
on GXP2130), it is excluded together with every later entry in
iteration order (see the counterexample). -/
theorem c1_mpk_arithmetic (m : String) (fks : List (Int × FK))
    (hm : m = "GXP2160" ∨ m = "GXP2130" ∨ m = "GXP2170" ∨ m = "GXP2140")
    (hr : ∀ e ∈ fks, 1 ≤ e.1 ∧ (m = "GXP2160" → e.1 ≤ 24) ∧ (m = "GXP2130" → e.1 ≤ 8)) :
    addMpkLoop (some m) fks = .ok (concatMap (fun e => claimPairs m e.1 e.2) fks) := by
  induction fks with
  | nil => rfl
  | cons e rest ih =>
    obtain ⟨i, fk⟩ := e
    have h1 : (1 : Int) ≤ i := (hr (i, fk) (List.mem_cons_self _ _)).1
    have h24 : m = "GXP2160" → i ≤ 24 := (hr (i, fk) (List.mem_cons_self _ _)).2.1
    have h8 : m = "GXP2130" → i ≤ 8 := (hr (i, fk) (List.mem_cons_self _ _)).2.2
    have ih2 := ih (fun e he => hr e (List.mem_cons_of_mem _ he))
    rcases hm with h | h | h | h <;> subst h
    · simp only [addMpkLoop]
      rw [if_pos (Or.inl trivial),
        if_neg (fun hc => absurd hc.2 (not_lt.mpr (h24 rfl))),
        if_neg (fun hc : some "GXP2160" = some "GXP2130" ∧ i > 8 =>
          absurd (Option.some.inj hc.1) (by decide)),
        gsIds_eq_claim (Or.inl rfl) h1, ih2, mpkEmit_claim]
      simp [concatMap]
    · simp only [addMpkLoop]
      rw [if_pos (Or.inr trivial),
        if_neg (fun hc : some "GXP2130" = some "GXP2160" ∧ i > 24 =>
          absurd (Option.some.inj hc.1) (by decide)),
        if_neg (fun hc => absurd hc.2 (not_lt.mpr (h8 rfl))),
        gsIds_eq_claim (Or.inr rfl) h1, ih2, mpkEmit_claim]
      simp [concatMap]
    · simp only [addMpkLoop]
      rw [if_pos (Or.inl trivial),
        gbIds_eq_claim (Or.inl rfl) i, ih2, mpkEmit_claim]
      simp [concatMap]
    · simp only [addMpkLoop]
      rw [if_pos (Or.inr trivial),
        gbIds_eq_claim (Or.inr rfl) i, ih2, mpkEmit_claim]
      simp [concatMap]

/-- Witness for `c1_mpk_arithmetic` at a concrete in-range input
covering all three `GXP2160` branches. -/
theorem c1_mpk_arithmetic_witness :
    addMpkLoop (some "GXP2160") [(1, fkBlf), (8, fkBlf), (19, fkBlf)] =
      .ok (concatMap (fun e => claimPairs "GXP2160" e.1 e.2)
        [(1, fkBlf), (8, fkBlf), (19, fkBlf)]) :=
  c1_mpk_arithmetic "GXP2160" [(1, fkBlf), (8, fkBlf), (19, fkBlf)]
    (Or.inl rfl) (by decide)

/-- Concrete funckeys config used for the C2 evidence. -/
def cfg2135 : RawConfig :=
  fun k => if k = "funckeys" then some (vFkeys [(1, fkBlf), (2, fkBlf)]) else none

/-- C2 evidence: on `GXP2135` every key is skipped and `XX_mpk` is
set to the empty list (first conjunct, as the claim says); but for an
unknown model (absent `u'model'`) with a supported-type funckey, the
loop body reaches `u'P...'.format(key_mode_id)` with `key_mode_id`
never assigned, so `_add_mpk` raises `UnboundLocalError` instead of
completing with an empty list (second conjunct): the missing
`continue` after `logger.error` contradicts the spec's "no failure
beyond logging". -/
theorem c2_unknown_model_raises :
    add_mpk (some "GXP2135") cfg2135 = .ok (setK "XX_mpk" (vPairs []) cfg2135) ∧
    addMpkLoop none [(1, fkBlf)] = .error .nameError := by
  constructor
  · rfl
  · rfl

/-- C3: `_do_associate` maps every (vendor, model, version) triple to
exactly one of the four support levels as the claim states: non
Grandstream vendor to `IMPROBABLE_SUPPORT`, unknown model to
`UNKNOWN_SUPPORT`, known model with non-matching version prefix to
the partial level (`COMPLETE_SUPPORT`), and known model with matching
prefix to `FULL_SUPPORT`. -/
theorem c3_do_associate (models : List String) (vp vendor model version : String) :
    (vendor ≠ "Grandstream" →
      do_associate models vp vendor model version = .improbable) ∧
    (vendor = "Grandstream" → model ∉ models →
      do_associate models vp vendor model version = .unknownSup) ∧
    (vendor = "Grandstream" → model ∈ models → pyStartswith version vp = false →
      do_associate models vp vendor model version = .complete) ∧
    (vendor = "Grandstream" → model ∈ models → pyStartswith version vp = true →
      do_associate models vp vendor model version = .full) := by
  refine ⟨fun h => ?_, fun h h2 => ?_, fun h h2 h3 => ?_, fun h h2 h3 => ?_⟩
  · simp [do_associate, h]
  · simp [do_associate, h, h2]
  · simp [do_associate, h, h2, h3]
  · simp [do_associate, h, h2, h3]

/-- Witness for `c3_do_associate`: a full match on concrete data. -/
theorem c3_do_associate_witness :
    do_associate ["GXP2160", "GXP2170"] "1.0.11.48" "Grandstream" "GXP2160"
      "1.0.11.48.2" = .full :=
  (c3_do_associate ["GXP2160", "GXP2170"] "1.0.11.48" "Grandstream" "GXP2160"
    "1.0.11.48.2").2.2.2 rfl (by decide) (by decide)

/-- C6: `configure` raises `RawConfigError` when `u'http_port'` is
missing from the raw config, and otherwise a generic `Exception` when
`u'mac'` is missing from the device; both checks run before any
enrichment step, so the pipeline never starts and the raw config is
left untouched (the error carries no modified config). -/
theorem c6_preconditions (dev : Device) (cfg : RawConfig) :
    (cfg "http_port" = none → configureF dev cfg = .error .rawConfigError) ∧
    (cfg "http_port" ≠ none → dev.mac = none →
      configureF dev cfg = .error .missingMac) := by
  constructor
  · intro h
    simp [configureF, check_config, h, Bind.bind, Except.bind]
  · intro h1 h2
    simp [configureF, check_config, check_device, h1, h2, Bind.bind, Except.bind]

/-- Concrete raw config with only `u'http_port'`. -/
def cfgHttpOnly : RawConfig :=
  fun k => if k = "http_port" then some (vInt 80) else none

/-- Witness for `c6_preconditions`: a device without a MAC aborts with
the generic error. -/
theorem c6_preconditions_witness :
    configureF ⟨none, none⟩ cfgHttpOnly = .error .missingMac :=
  (c6_preconditions ⟨none, none⟩ cfgHttpOnly).2 (by decide) rfl

/-- C10: with `u'funckeys'` present, `_add_fkeys` sets `u'XX_fkeys'`
to the empty list and `_add_v2_fkeys` sets `u'XX_v2_fkeys'` to the
empty list, regardless of the funckeys contents and of the device
model: the mapping logic of both functions is commented out. -/
theorem c10_fkeys_always_empty (cfg : RawConfig) (fks : List (Int × FK))
    (m : Option String) (h : cfg "funckeys" = some (vFkeys fks)) :
    add_fkeys cfg = .ok (setK "XX_fkeys" (vPairs []) cfg) ∧
    add_v2_fkeys m cfg = .ok (setK "XX_v2_fkeys" (vPairs []) cfg) := by
  constructor
  · unfold add_fkeys
    rw [h]
  · rfl

/-- Witness for `c10_fkeys_always_empty` on a nonempty funckeys dict
and a known model. -/
theorem c10_fkeys_always_empty_witness :
    add_fkeys cfg2135 = .ok (setK "XX_fkeys" (vPairs []) cfg2135) ∧
    add_v2_fkeys (some "GXP2160") cfg2135 =
      .ok (setK "XX_v2_fkeys" (vPairs []) cfg2135) :=
  c10_fkeys_always_empty cfg2135 [(1, fkBlf), (2, fkBlf)] (some "GXP2160") rfl

/-! ### User-Agent extraction (C4, C5) -/

theorem dropLit_append (l1 l2 s : List Char) :
    dropLit (l1 ++ l2) s = (dropLit l1 s).bind (dropLit l2) := by
  induction l1 generalizing s with
  | nil => simp [dropLit]
  | cons c cs ih =>
    cases s with
    | nil => simp [dropLit]
    | cons d ds =>
      simp only [List.cons_append, dropLit]
      by_cases h : c = d <;> simp [h, ih]

theorem dropLit_cons {c : Char} {cs s r : List Char}
    (h : dropLit (c :: cs) s = some r) : ∃ t, s = c :: t ∧ dropLit cs t = some r := by
  cases s with
  | nil => simp [dropLit] at h
  | cons d ds =>
    simp only [dropLit] at h
    by_cases hc : c = d
    · exact ⟨ds, by rw [hc], by rwa [if_pos hc] at h⟩
    · rw [if_neg hc] at h
      exact absurd h (by simp)

/-- The two User-Agent patterns are mutually exclusive: pattern 1
requires `Model ` and pattern 2 requires `GXP2000 ` right after the
common `Grandstream ` head, so a string matched by pattern 2 is not
matched by pattern 1. -/
theorem matcher1_none_of_matcher2 {s : List Char} {x : String × String × String}
    (h : matcher2 s = some x) : matcher1 s = none := by
  cases h0 : dropLit (LITCOMMON ++ LIT2TAIL) s with
  | none => rw [matcher2, h0] at h; simp at h
  | some r0 =>
    rw [dropLit_append] at h0
    cases h1 : dropLit LITCOMMON s with
    | none => rw [h1] at h0; simp at h0
    | some t =>
      rw [h1] at h0
      simp only [Option.some_bind] at h0
      unfold LIT2TAIL at h0
      obtain ⟨t2, ht, -⟩ := dropLit_cons h0
      have hnone : dropLit (LITCOMMON ++ LIT1TAIL) s = none := by
        rw [dropLit_append, h1, ht]
        unfold LIT1TAIL
        simp [dropLit]
      rw [matcher1, hnone]
      rfl

/-- C4: on a User-Agent matched by either pattern whose captured MAC
normalizes, extraction returns the descriptor with vendor
`Grandstream` and the captured model, version and normalized MAC; in
particular the documented example User-Agent yields exactly the
claimed descriptor. -/
theorem c4_extract_descriptor :
    (∀ (ua m v rmac nmac : String),
      (matcher1 ua.data = some (m, v, rmac) ∨ matcher2 ua.data = some (m, v, rmac)) →
      norm_mac rmac = some nmac →
      extract_from_ua ua = some ⟨"Grandstream", m, v, nmac⟩) ∧
    extract_from_ua "Grandstream Model HW GXP2160 SW 1.0.4.23 DevId 000b8240d55c" =
      some ⟨"Grandstream", "GXP2160", "1.0.4.23", "00:0b:82:40:d5:5c"⟩ := by
  constructor
  · intro ua m v rmac nmac hm hn
    rcases hm with h | h
    · simp [extract_from_ua, extractLoop, h, hn]
    · have hm1 := matcher1_none_of_matcher2 h
      simp [extract_from_ua, extractLoop, hm1, h, hn]
  · rfl

/-- Witness for `c4_extract_descriptor` applying its universal part
to the documented example. -/
theorem c4_extract_descriptor_witness :
    extract_from_ua "Grandstream Model HW GXP2160 SW 1.0.4.23 DevId 000b8240d55c" =
      some ⟨"Grandstream", "GXP2160", "1.0.4.23", "00:0b:82:40:d5:5c"⟩ :=
  c4_extract_descriptor.1 "Grandstream Model HW GXP2160 SW 1.0.4.23 DevId 000b8240d55c"
    "GXP2160" "1.0.4.23" "000b8240d55c" "00:0b:82:40:d5:5c" (Or.inl rfl) rfl

/-- C5: a User-Agent matching neither pattern extracts to `None`, and
a User-Agent matching a pattern whose captured MAC fails to normalize
is treated as a non-match (the `ValueError` is caught and logged, not
propagated, and `None` is returned). -/
theorem c5_extract_no_match (ua : String) :
    (matcher1 ua.data = none → matcher2 ua.data = none →
      extract_from_ua ua = none) ∧
    (∀ m v rmac,
      (matcher1 ua.data = some (m, v, rmac) ∨ matcher2 ua.data = some (m, v, rmac)) →
      norm_mac rmac = none → extract_from_ua ua = none) := by
  constructor
  · intro h1 h2
    simp [extract_from_ua, extractLoop, h1, h2]
  · intro m v rmac hm hn
    rcases hm with h | h
    · have h2 : matcher2 ua.data = none := by
        cases hm2 : matcher2 ua.data with
        | none => rfl
        | some y => rw [matcher1_none_of_matcher2 hm2] at h; exact absurd h (by simp)
      simp [extract_from_ua, extractLoop, h, hn, h2]
    · have hm1 := matcher1_none_of_matcher2 h
      simp [extract_from_ua, extractLoop, hm1, h, hn]

/-- Witness for `c5_extract_no_match`: a pattern-1 match whose DevId
is not a well-formed MAC extracts to `None`. -/
theorem c5_extract_no_match_witness :
    extract_from_ua "Grandstream Model HW GXP2160 SW 1.0.4.23 DevId zz12" = none :=
  (c5_extract_no_match "Grandstream Model HW GXP2160 SW 1.0.4.23 DevId zz12").2
    "GXP2160" "1.0.4.23" "zz12" (Or.inl rfl) rfl

/-! ### Key bookkeeping for the enrichment pipeline (C7, C8, C9) -/

/-- Tests whether a key lies in the derived namespace, i.e. starts
with `XX_`. -/
def hasXX (k : String) : Bool :=
  match k.data with
  | 'X' :: 'X' :: '_' :: _ => true
  | _ => false

/-- Tests whether a key is one of the `XX_dns_<n>` family. -/
def hasDns (k : String) : Bool :=
  match k.data with
  | 'X' :: 'X' :: '_' :: 'd' :: 'n' :: 's' :: '_' :: _ => true
  | _ => false

theorem hasXX_dns (s : String) : hasXX ("XX_dns_" ++ s) = true := rfl

theorem hasDns_dns (s : String) : hasDns ("XX_dns_" ++ s) = true := rfl

theorem hasXX_of_hasDns {k : String} (h : hasDns k = true) : hasXX k = true := by
  unfold hasDns at h
  unfold hasXX
  split at h
  · rename_i heq
    rw [heq]
    rfl
  · exact absurd h (by simp)

theorem ne_dns_of_not_hasDns {q : String} (hq : hasDns q = false) (s : String) :
    q ≠ "XX_dns_" ++ s := by
  intro h
  rw [h, hasDns_dns] at hq
  exact absurd hq (by simp)

theorem not_hasDns_of_not_hasXX {q : String} (hq : hasXX q = false) :
    hasDns q = false := by
  cases hd : hasDns q with
  | false => rfl
  | true => rw [hasXX_of_hasDns hd] at hq; exact absurd hq (by simp)

theorem ne_of_hasXX {q k : String} (hq : hasXX q = false) (hk : hasXX k = true) :
    q ≠ k := by
  intro h
  rw [h, hk] at hq
  exact absurd hq (by simp)

theorem writeDns_get {q : String} (hq : hasDns q = false) (ps : List String)
    (n : Nat) (cfg : RawConfig) : writeDns ps n cfg q = cfg q := by
  induction ps generalizing n cfg with
  | nil => rfl
  | cons p ps ih =>
    rw [writeDns, ih, getK_set_ne (ne_dns_of_not_hasDns hq (toString n))]

theorem writeDns_setK {k : String} (hk : hasDns k = false) (v : Val)
    (ps : List String) (n : Nat) (cfg : RawConfig) :
    writeDns ps n (setK k v cfg) = setK k v (writeDns ps n cfg) := by
  induction ps generalizing n cfg with
  | nil => rfl
  | cons p ps ih =>
    rw [writeDns, writeDns,
      setK_comm (Ne.symm (ne_dns_of_not_hasDns hk (toString n))), ih]

theorem except_bind_ok {α β : Type} {e : Except Err α} {g : α → Except Err β}
    {d : β} (h : e >>= g = .ok d) : ∃ a, e = .ok a ∧ g a = .ok d := by
  cases e with
  | error e1 =>
    rw [show (Except.error e1 >>= g) = Except.error e1 from rfl] at h
    exact absurd h (by simp)
  | ok a =>
    exact ⟨a, rfl, by rwa [show (Except.ok a >>= g) = g a from rfl] at h⟩

theorem map_clearPw_id {ls : List (String × String)}
    (h : ∀ p ∈ ls, p.2 ≠ "autoprov") : ls.map clearPw = ls := by
  induction ls with
  | nil => rfl
  | cons p ps ih =>
    simp only [List.map_cons]
    rw [show clearPw p = p from by
        unfold clearPw; rw [if_neg (h p (List.mem_cons_self _ _))],
      ih (fun p2 hp2 => h p2 (List.mem_cons_of_mem _ hp2))]

/-! ### Per-step write-set lemmas: each enrichment step changes only
its own keys -/

theorem clp_change {cfg d : RawConfig} (h : check_lines_password cfg = .ok d) :
    (∀ q, q ≠ "sip_lines" → d q = cfg q) ∧
    ∀ ls, cfg "sip_lines" = some (vLines ls) →
      d "sip_lines" = some (vLines (ls.map clearPw)) := by
  unfold check_lines_password at h
  split at h
  · rename_i ls0 heq
    injection h with h2
    subst h2
    refine ⟨fun q hq => getK_set_ne hq _ _, fun ls2 hls2 => ?_⟩
    rw [heq] at hls2
    injection hls2 with hls2
    injection hls2 with hls2
    subst hls2
    exact getK_set_eq _ _ _
  · exact absurd h (by simp)
  · exact absurd h (by simp)

theorem stP_cases (cfg : RawConfig) :
    add_sip_transportP cfg = cfg ∨
    ∃ t, add_sip_transportP cfg = setK "XX_sip_transport" (vStr t) cfg := by
  unfold add_sip_transportP
  split
  · split
    · exact Or.inr ⟨_, rfl⟩
    · exact Or.inl rfl
  · exact Or.inl rfl

theorem st_change {cfg d : RawConfig} (h : add_sip_transport cfg = .ok d) :
    ∀ q, q ≠ "XX_sip_transport" → d q = cfg q := by
  intro q hq
  injection h with h2
  subst h2
  rcases stP_cases cfg with h2 | ⟨t, h2⟩ <;> rw [h2]
  exact getK_set_ne hq _ _

theorem tz_change {cfg d : RawConfig} (h : add_timezone cfg = .ok d) :
    ∀ q, q ≠ "XX_timezone" → q ≠ "timezone" → d q = cfg q := by
  intro q hq1 hq2
  injection h with h2
  subst h2
  unfold add_timezoneP
  split
  · exact getK_set_ne hq1 _ _
  · exact getK_set_ne hq2 _ _

theorem loP_cases (cfg : RawConfig) :
    add_localeP cfg = cfg ∨
    ∃ t, add_localeP cfg = setK "XX_locale" (vStr t) cfg := by
  unfold add_localeP
  split
  · split
    · exact Or.inr ⟨_, rfl⟩
    · exact Or.inl rfl
  · exact Or.inl rfl

theorem lo_change {cfg d : RawConfig} (h : add_locale cfg = .ok d) :
    ∀ q, q ≠ "XX_locale" → d q = cfg q := by
  intro q hq
  injection h with h2
  subst h2
  rcases loP_cases cfg with h2 | ⟨t, h2⟩ <;> rw [h2]
  exact getK_set_ne hq _ _

theorem dt_change {cfg d : RawConfig} (h : add_dtmf_mode cfg = .ok d) :
    ∀ q, q ≠ "XX_dtmf_in_audio" → q ≠ "XX_dtmf_in_rtp" → q ≠ "XX_dtmf_in_sip" →
      d q = cfg q := by
  intro q hq1 hq2 hq3
  unfold add_dtmf_mode at h
  split at h
  · split at h
    · split at h
      · injection h with h2
        subst h2
        rw [getK_set_ne hq3, getK_set_ne hq2, getK_set_ne hq1]
      · exact absurd h (by simp)
    · exact absurd h (by simp)
  · injection h with h2
    subst h2
    rfl

theorem fk_change {cfg d : RawConfig} (h : add_fkeys cfg = .ok d) :
    ∀ q, q ≠ "XX_fkeys" → d q = cfg q := by
  intro q hq
  unfold add_fkeys at h
  split at h
  · injection h with h2
    subst h2
    exact getK_set_ne hq _ _
  · exact absurd h (by simp)
  · exact absurd h (by simp)

theorem mpk_change {m : Option String} {cfg d : RawConfig}
    (h : add_mpk m cfg = .ok d) : ∀ q, q ≠ "XX_mpk" → d q = cfg q := by
  intro q hq
  unfold add_mpk at h
  split at h
  · rename_i fks heq
    cases hl : addMpkLoop m fks with
    | error e => rw [hl] at h; exact absurd h (by simp [Except.map])
    | ok l =>
      rw [hl] at h
      injection h with h2
      subst h2
      exact getK_set_ne hq _ _
  · exact absurd h (by simp)
  · exact absurd h (by simp)

theorem v2_change {m : Option String} {cfg d : RawConfig}
    (h : add_v2_fkeys m cfg = .ok d) : ∀ q, q ≠ "XX_v2_fkeys" → d q = cfg q := by
  intro q hq
  injection h with h2
  subst h2
  exact getK_set_ne hq _ _

theorem dns_change {cfg d : RawConfig} (h : add_dns cfg = .ok d) :
    ∀ q, hasDns q = false → d q = cfg q := by
  intro q hq
  unfold add_dns at h
  split at h
  · split at h
    · injection h with h2
      subst h2
      exact writeDns_get hq _ _ _
    · exact absurd h (by simp)
    · exact absurd h (by simp)
  · injection h with h2
    subst h2
    rfl

/-! ### C7: behaviour of `configure` when optional keys are absent -/

/-- C7 counterexample: with the preconditions satisfied
(`u'http_port'` and a MAC present) but the optional `u'sip_lines'`
absent, `configure` does not treat `_check_lines_password` as a
no-op: `raw_config[u'sip_lines']` raises `KeyError`, so `configure`
raises instead of completing. -/
theorem c7_missing_sip_lines_raises :
    configureF ⟨some "00:0b:82:40:d5:5c", none⟩ cfgHttpOnly =
      .error (.keyError "sip_lines") := rfl

/-- C7 (amended): `configure` additionally requires `u'sip_lines'`
and `u'funckeys'` to be present (their enrichment steps index the raw
config directly and raise `KeyError` otherwise).  Given those, no
`u'autoprov'` passwords, and a funckeys/model combination on which
the `_add_mpk` loop itself completes with some pair list `L` (for an
unknown model with a supported-type key it instead raises
`UnboundLocalError`, see C2), when the optional keys
`u'sip_transport'`, `u'timezone'`, `u'locale'`, `u'sip_dtmf_mode'`
and `u'dns_enabled'` are all absent `configure` completes without
raising, the corresponding steps add none of their derived keys, and
the only keys written are the unconditional `XX_fkeys` (empty),
`XX_mpk` (the loop's pairs `L`) and `XX_v2_fkeys` (empty) plus
`u'timezone'`, which the timezone step sets to the Paris TZ string
even when absent. -/
theorem c7_optional_steps_no_op (dev : Device) (cfg : RawConfig)
    (ls : List (String × String)) (fks : List (Int × FK)) (L : List (String × PV))
    (hhttp : cfg "http_port" ≠ none) (hmac : dev.mac ≠ none)
    (hsl : cfg "sip_lines" = some (vLines ls))
    (hpw : ∀ p ∈ ls, p.2 ≠ "autoprov")
    (hfk : cfg "funckeys" = some (vFkeys fks))
    (hmpk : addMpkLoop dev.model fks = .ok L)
    (hst : cfg "sip_transport" = none) (htz : cfg "timezone" = none)
    (hlo : cfg "locale" = none) (hdt : cfg "sip_dtmf_mode" = none)
    (hdns : cfg "dns_enabled" = none) :
    configureF dev cfg =
      .ok (setK "XX_v2_fkeys" (vPairs []) (setK "XX_mpk" (vPairs L)
        (setK "XX_fkeys" (vPairs []) (setK "timezone" (vStr parisTZ) cfg)))) ∧
    ∀ q, q ≠ "XX_fkeys" → q ≠ "XX_mpk" → q ≠ "XX_v2_fkeys" → q ≠ "timezone" →
      setK "XX_v2_fkeys" (vPairs []) (setK "XX_mpk" (vPairs L)
        (setK "XX_fkeys" (vPairs []) (setK "timezone" (vStr parisTZ) cfg))) q =
        cfg q := by
  constructor
  · have hA : check_config cfg = .ok () := by
      unfold check_config; rw [if_neg hhttp]
    have hB : check_device dev = .ok () := by
      unfold check_device; rw [if_neg hmac]
    have h1 : check_lines_password cfg = .ok cfg := by
      unfold check_lines_password
      rw [hsl]
      change Except.ok (setK "sip_lines" (vLines (ls.map clearPw)) cfg) = _
      rw [map_clearPw_id hpw, setK_same hsl]
    have h2 : add_sip_transport cfg = .ok cfg := by
      unfold add_sip_transport add_sip_transportP; rw [hst]
    have h3 : add_timezone cfg = .ok (setK "timezone" (vStr parisTZ) cfg) := by
      unfold add_timezone add_timezoneP; rw [htz]; rfl
    have h4 : add_locale (setK "timezone" (vStr parisTZ) cfg) =
        .ok (setK "timezone" (vStr parisTZ) cfg) := by
      unfold add_locale add_localeP
      rw [getK_set_ne (by decide) _ _, hlo]
    have h5 : add_dtmf_mode (setK "timezone" (vStr parisTZ) cfg) =
        .ok (setK "timezone" (vStr parisTZ) cfg) := by
      unfold add_dtmf_mode
      rw [getK_set_ne (by decide) _ _, hdt]
      rfl
    have h6 : add_fkeys (setK "timezone" (vStr parisTZ) cfg) =
        .ok (setK "XX_fkeys" (vPairs []) (setK "timezone" (vStr parisTZ) cfg)) := by
      unfold add_fkeys
      rw [getK_set_ne (by decide) _ _, hfk]
    have h7 : add_mpk dev.model
        (setK "XX_fkeys" (vPairs []) (setK "timezone" (vStr parisTZ) cfg)) =
        .ok (setK "XX_mpk" (vPairs L)
          (setK "XX_fkeys" (vPairs []) (setK "timezone" (vStr parisTZ) cfg))) := by
      unfold add_mpk
      rw [getK_set_ne (by decide) _ _, getK_set_ne (by decide) _ _, hfk]
      show (addMpkLoop dev.model fks).map
        (fun l => setK "XX_mpk" (vPairs l)
          (setK "XX_fkeys" (vPairs []) (setK "timezone" (vStr parisTZ) cfg))) = _
      rw [hmpk]
      rfl
    have h9 : add_dns (setK "XX_v2_fkeys" (vPairs []) (setK "XX_mpk" (vPairs L)
        (setK "XX_fkeys" (vPairs []) (setK "timezone" (vStr parisTZ) cfg)))) =
        .ok (setK "XX_v2_fkeys" (vPairs []) (setK "XX_mpk" (vPairs L)
          (setK "XX_fkeys" (vPairs []) (setK "timezone" (vStr parisTZ) cfg)))) := by
      unfold add_dns
      rw [getK_set_ne (by decide) _ _, getK_set_ne (by decide) _ _,
        getK_set_ne (by decide) _ _, getK_set_ne (by decide) _ _, hdns]
      rfl
    have h8 : add_v2_fkeys dev.model (setK "XX_mpk" (vPairs L)
        (setK "XX_fkeys" (vPairs []) (setK "timezone" (vStr parisTZ) cfg))) =
        .ok (setK "XX_v2_fkeys" (vPairs []) (setK "XX_mpk" (vPairs L)
          (setK "XX_fkeys" (vPairs []) (setK "timezone" (vStr parisTZ) cfg)))) := rfl
    unfold configureF enrich
    simp only [hA, hB, h1, h2, h3, h4, h5, h6, h7, h8, h9,
      show ∀ (a : Unit) (g : Unit → Except Err RawConfig), (Except.ok a >>= g) = g a
        from fun a g => rfl,
      show ∀ (a : RawConfig) (g : RawConfig → Except Err RawConfig),
        (Except.ok a >>= g) = g a from fun a g => rfl]
  · intro q h1 h2 h3 h4
    rw [getK_set_ne h3, getK_set_ne h2, getK_set_ne h1, getK_set_ne h4]

/-- Concrete raw config with empty funckeys: preconditions satisfied,
`sip_lines` and `funckeys` present, all optional enrichment inputs
absent (used by the C8 and C9 witnesses). -/
def cfgC7 : RawConfig := fun k =>
  if k = "http_port" then some (vInt 80)
  else if k = "sip_lines" then some (vLines [("1", "secret")])
  else if k = "funckeys" then some (vFkeys [])
  else none

/-- Like `cfgC7` but with a nonempty funckeys dict, for the C7
witness. -/
def cfgC7n : RawConfig := fun k =>
  if k = "http_port" then some (vInt 80)
  else if k = "sip_lines" then some (vLines [("1", "secret")])
  else if k = "funckeys" then some (vFkeys [(1, fkBlf)])
  else none

/-- Witness for `c7_optional_steps_no_op` at a concrete device with a
known model and a nonempty funckeys dict: the optional-absent steps
add nothing and `XX_mpk` holds the loop's pairs. -/
theorem c7_optional_steps_no_op_witness :
    configureF ⟨some "00:0b:82:40:d5:5c", some "GXP2160"⟩ cfgC7n =
      .ok (setK "XX_v2_fkeys" (vPairs []) (setK "XX_mpk"
        (vPairs [("P323", .int 1), ("P301", .int 0), ("P302", .str "Bob"),
          ("P303", .str "100")])
        (setK "XX_fkeys" (vPairs []) (setK "timezone" (vStr parisTZ) cfgC7n)))) :=
  (c7_optional_steps_no_op ⟨some "00:0b:82:40:d5:5c", some "GXP2160"⟩ cfgC7n
    [("1", "secret")] [(1, fkBlf)]
    [("P323", .int 1), ("P301", .int 0), ("P302", .str "Bob"), ("P303", .str "100")]
    (by decide) (by decide) rfl (by decide) rfl rfl rfl rfl rfl rfl rfl).1

/-! ### C8: which keys the enrichment steps may touch -/

/-- Raw config whose caller supplied a non-Paris timezone. -/
def cfgTz : RawConfig :=
  fun k => if k = "timezone" then some (vStr "America/Montreal") else none

/-- C8 counterexample: the timezone step overwrites the pre-existing
caller-supplied `u'timezone'` key (not `XX_`-prefixed) with the Paris
TZ string whenever its value is not in `TZ_NAME`: the key does not
keep its original value. -/
theorem c8_timezone_overwritten :
    add_timezone cfgTz = .ok (setK "timezone" (vStr parisTZ) cfgTz) ∧
    setK "timezone" (vStr parisTZ) cfgTz "timezone" = some (vStr parisTZ) ∧
    cfgTz "timezone" = some (vStr "America/Montreal") ∧
    vStr parisTZ ≠ vStr "America/Montreal" := by
  refine ⟨rfl, rfl, rfl, ?_⟩
  decide

/-- C8 (amended): a successful enrichment changes only keys in the
derived `XX_` namespace together with `u'timezone'` (which
`_add_timezone` may set to the Paris TZ string) and `u'sip_lines'`
(whose `u'autoprov'` passwords `_check_lines_password` blanks); every
other key, present or absent, keeps its original value, and the
`u'sip_lines'` value changes exactly by the password rewrite. -/
theorem c8_enrich_touched_keys (m : Option String) (cfg d : RawConfig)
    (h : enrich m cfg = .ok d) :
    (∀ q, hasXX q = false → q ≠ "timezone" → q ≠ "sip_lines" → d q = cfg q) ∧
    ∀ ls, cfg "sip_lines" = some (vLines ls) →
      d "sip_lines" = some (vLines (ls.map clearPw)) := by
  unfold enrich at h
  obtain ⟨c1, h1, h⟩ := except_bind_ok h
  obtain ⟨c2, h2, h⟩ := except_bind_ok h
  obtain ⟨c3, h3, h⟩ := except_bind_ok h
  obtain ⟨c4, h4, h⟩ := except_bind_ok h
  obtain ⟨c5, h5, h⟩ := except_bind_ok h
  obtain ⟨c6, h6, h⟩ := except_bind_ok h
  obtain ⟨c7, h7, h⟩ := except_bind_ok h
  obtain ⟨c8, h8, h9⟩ := except_bind_ok h
  constructor
  · intro q hxx htz hsl
    rw [dns_change h9 q (not_hasDns_of_not_hasXX hxx),
      v2_change h8 q (ne_of_hasXX hxx rfl),
      mpk_change h7 q (ne_of_hasXX hxx rfl),
      fk_change h6 q (ne_of_hasXX hxx rfl),
      dt_change h5 q (ne_of_hasXX hxx rfl) (ne_of_hasXX hxx rfl)
        (ne_of_hasXX hxx rfl),
      lo_change h4 q (ne_of_hasXX hxx rfl),
      tz_change h3 q (ne_of_hasXX hxx rfl) htz,
      st_change h2 q (ne_of_hasXX hxx rfl),
      (clp_change h1).1 q hsl]
  · intro ls hls
    rw [dns_change h9 _ (by decide),
      v2_change h8 _ (by decide),
      mpk_change h7 _ (by decide),
      fk_change h6 _ (by decide),
      dt_change h5 _ (by decide) (by decide) (by decide),
      lo_change h4 _ (by decide),
      tz_change h3 _ (by decide) (by decide),
      st_change h2 _ (by decide)]
    exact (clp_change h1).2 ls hls

/-- The enriched config produced from `cfgC7` with model `GXP2135`,
used by the C8 witness. -/
def enrichedC7 : RawConfig :=
  setK "XX_v2_fkeys" (vPairs []) (setK "XX_mpk" (vPairs [])
    (setK "XX_fkeys" (vPairs []) (setK "timezone" (vStr parisTZ)
      (setK "sip_lines" (vLines [("1", "secret")]) cfgC7))))

/-- Witness for `c8_enrich_touched_keys` on a concrete successful
enrichment: an unrelated caller key is untouched. -/
theorem c8_enrich_touched_keys_witness :
    enrichedC7 "admin_username" = cfgC7 "admin_username" :=
  (c8_enrich_touched_keys (some "GXP2135") cfgC7 enrichedC7 rfl).1
    "admin_username" (by decide) (by decide) (by decide)

/-! ### C9: commutation of the independent enrichment steps

Each step is characterized by (a) an equivariance lemma: writing any
key outside the step's relevant key set before running it commutes
with the step; and (b) a write lemma: a successful run applies a list
of key updates drawn from the step's relevant set.  Two steps with
disjoint relevant sets then commute up to `Except.toOption` (when
both steps fail, the two orders raise the two different exceptions,
so what is shared is exactly the resulting mapping or the absence of
one). -/

/-- Applies a list of key updates, head outermost. -/
def applyUpdates : List (String × Val) → RawConfig → RawConfig
  | [], cfg => cfg
  | u :: us, cfg => setK u.1 u.2 (applyUpdates us cfg)

theorem applyUpdates_setK_comm {us : List (String × Val)} {k : String}
    (h : ∀ u ∈ us, u.1 ≠ k) (v : Val) (cfg : RawConfig) :
    applyUpdates us (setK k v cfg) = setK k v (applyUpdates us cfg) := by
  induction us with
  | nil => rfl
  | cons u us ih =>
    rw [applyUpdates, applyUpdates,
      ih (fun w hw => h w (List.mem_cons_of_mem _ hw)),
      setK_comm (h u (List.mem_cons_self _ _))]

theorem applyUpdates_comm {a b : List (String × Val)}
    (h : ∀ u ∈ a, ∀ w ∈ b, u.1 ≠ w.1) (cfg : RawConfig) :
    applyUpdates a (applyUpdates b cfg) = applyUpdates b (applyUpdates a cfg) := by
  induction a with
  | nil => rfl
  | cons u a ih =>
    rw [applyUpdates, ih (fun u2 hu2 => h u2 (List.mem_cons_of_mem _ hu2)),
      (applyUpdates_setK_comm
        (fun w hw => (h u (List.mem_cons_self _ _) w hw).symm) u.2
        (applyUpdates a cfg)).symm]
    rfl

/-- Equivariance of a step under writes outside its key set. -/
def Equiv9 (keys : String → Bool) (f : RawConfig → Except Err RawConfig) : Prop :=
  ∀ (k : String) (v : Val) (cfg : RawConfig), keys k = false →
    f (setK k v cfg) = (f cfg).map (setK k v)

/-- A successful step applies updates drawn from its key set. -/
def Writes9 (keys : String → Bool) (f : RawConfig → Except Err RawConfig) : Prop :=
  ∀ cfg d, f cfg = .ok d →
    ∃ us, (∀ u ∈ us, keys u.1 = true) ∧ d = applyUpdates us cfg

theorem equiv9_applyUpdates {keys f} (hE : Equiv9 keys f)
    {us : List (String × Val)} (hus : ∀ u ∈ us, keys u.1 = false)
    (cfg : RawConfig) :
    f (applyUpdates us cfg) = (f cfg).map (applyUpdates us) := by
  induction us with
  | nil => cases hf : f cfg <;> simp [applyUpdates, Except.map, hf]
  | cons u us ih =>
    rw [applyUpdates, hE u.1 u.2 _ (hus u (List.mem_cons_self _ _)),
      ih (fun w hw => hus w (List.mem_cons_of_mem _ hw))]
    cases hf : f cfg <;> simp [Except.map, applyUpdates]

/-- Master commutation lemma: two steps with disjoint key sets
commute up to `toOption`. -/
theorem comm_master {keysF keysG f g}
    (hdisj : ∀ k, ¬(keysF k = true ∧ keysG k = true))
    (hEf : Equiv9 keysF f) (hEg : Equiv9 keysG g)
    (hWf : Writes9 keysF f) (hWg : Writes9 keysG g) (cfg : RawConfig) :
    ((f cfg) >>= g).toOption = ((g cfg) >>= f).toOption := by
  have flipF : ∀ {us : List (String × Val)}, (∀ u ∈ us, keysF u.1 = true) →
      ∀ u ∈ us, keysG u.1 = false := by
    intro us hus u hu
    cases hk : keysG u.1 with
    | false => rfl
    | true => exact absurd ⟨hus u hu, hk⟩ (hdisj u.1)
  have flipG : ∀ {us : List (String × Val)}, (∀ u ∈ us, keysG u.1 = true) →
      ∀ u ∈ us, keysF u.1 = false := by
    intro us hus u hu
    cases hk : keysF u.1 with
    | false => rfl
    | true => exact absurd ⟨hk, hus u hu⟩ (hdisj u.1)
  cases hf : f cfg with
  | error eF =>
    cases hg : g cfg with
    | error eG => rfl
    | ok dG =>
      obtain ⟨usG, husG, rfl⟩ := hWg cfg dG hg
      rw [show (Except.error eF >>= g) = (Except.error eF : Except Err RawConfig)
          from rfl,
        show (Except.ok (applyUpdates usG cfg) >>= f) = f (applyUpdates usG cfg)
          from rfl,
        equiv9_applyUpdates hEf (flipG husG) cfg, hf]
      rfl
  | ok dF =>
    obtain ⟨usF, husF, rfl⟩ := hWf cfg dF hf
    cases hg : g cfg with
    | error eG =>
      rw [show (Except.ok (applyUpdates usF cfg) >>= g) = g (applyUpdates usF cfg)
          from rfl,
        show (Except.error eG >>= f) = (Except.error eG : Except Err RawConfig)
          from rfl,
        equiv9_applyUpdates hEg (flipF husF) cfg, hg]
      rfl
    | ok dG =>
      obtain ⟨usG, husG, rfl⟩ := hWg cfg dG hg
      rw [show (Except.ok (applyUpdates usF cfg) >>= g) = g (applyUpdates usF cfg)
          from rfl,
        show (Except.ok (applyUpdates usG cfg) >>= f) = f (applyUpdates usG cfg)
          from rfl,
        equiv9_applyUpdates hEg (flipF husF) cfg, hg,
        equiv9_applyUpdates hEf (flipG husG) cfg, hf]
      simp only [Except.map, Except.toOption]
      rw [applyUpdates_comm (fun u hu w hw => by
        intro he
        exact hdisj u.1 ⟨husF u hu, by rw [he]; exact husG w hw⟩)]

/-- Relevant keys of `_check_lines_password`. -/
def keysCL : String → Bool := fun k => k == "sip_lines"

/-- Relevant keys of `_add_sip_transport`. -/
def keysST : String → Bool := fun k => k == "sip_transport" || k == "XX_sip_transport"

/-- Relevant keys of `_add_timezone`. -/
def keysTZ : String → Bool := fun k => k == "timezone" || k == "XX_timezone"

/-- Relevant keys of `_add_locale`. -/
def keysLO : String → Bool := fun k => k == "locale" || k == "XX_locale"

/-- Relevant keys of `_add_dtmf_mode`. -/
def keysDT : String → Bool := fun k =>
  k == "sip_dtmf_mode" || k == "XX_dtmf_in_audio" || k == "XX_dtmf_in_rtp" ||
    k == "XX_dtmf_in_sip"

/-- Relevant keys of `_add_dns`. -/
def keysDN : String → Bool := fun k => k == "dns_enabled" || k == "dns_ip" || hasDns k

theorem equiv9_clp : Equiv9 keysCL check_lines_password := by
  intro k v cfg hk
  simp only [keysCL, beq_eq_false_iff_ne, ne_eq] at hk
  unfold check_lines_password
  rw [getK_set_ne (Ne.symm hk)]
  split
  · simp only [Except.map]
    exact congrArg Except.ok (setK_comm (Ne.symm hk) _ _ _)
  · rfl
  · rfl

theorem equiv9_st : Equiv9 keysST add_sip_transport := by
  intro k v cfg hk
  simp only [keysST, Bool.or_eq_false_iff, beq_eq_false_iff_ne, ne_eq] at hk
  unfold add_sip_transport add_sip_transportP
  rw [getK_set_ne (Ne.symm hk.1)]
  split
  · split
    · simp only [Except.map]
      exact congrArg Except.ok (setK_comm (Ne.symm hk.2) _ _ _)
    · rfl
  · rfl

theorem equiv9_tz : Equiv9 keysTZ add_timezone := by
  intro k v cfg hk
  simp only [keysTZ, Bool.or_eq_false_iff, beq_eq_false_iff_ne, ne_eq] at hk
  unfold add_timezone add_timezoneP
  rw [getK_set_ne (Ne.symm hk.1)]
  split
  · simp only [Except.map]
    exact congrArg Except.ok (setK_comm (Ne.symm hk.2) _ _ _)
  · simp only [Except.map]
    exact congrArg Except.ok (setK_comm (Ne.symm hk.1) _ _ _)

theorem equiv9_lo : Equiv9 keysLO add_locale := by
  intro k v cfg hk
  simp only [keysLO, Bool.or_eq_false_iff, beq_eq_false_iff_ne, ne_eq] at hk
  unfold add_locale add_localeP
  rw [getK_set_ne (Ne.symm hk.1)]
  split
  · split
    · simp only [Except.map]
      exact congrArg Except.ok (setK_comm (Ne.symm hk.2) _ _ _)
    · rfl
  · rfl

theorem equiv9_dt : Equiv9 keysDT add_dtmf_mode := by
  intro k v cfg hk
  simp only [keysDT, Bool.or_eq_false_iff, beq_eq_false_iff_ne, ne_eq] at hk
  obtain ⟨⟨⟨h1, h2⟩, h3⟩, h4⟩ := hk
  unfold add_dtmf_mode
  rw [getK_set_ne (Ne.symm h1)]
  split
  · split
    · split
      · simp only [Except.map]
        rw [setK_comm (Ne.symm h2), setK_comm (Ne.symm h3), setK_comm (Ne.symm h4)]
      · rfl
    · rfl
  · rfl

theorem equiv9_dns : Equiv9 keysDN add_dns := by
  intro k v cfg hk
  simp only [keysDN, Bool.or_eq_false_iff, beq_eq_false_iff_ne, ne_eq] at hk
  obtain ⟨⟨h1, h2⟩, h3⟩ := hk
  unfold add_dns
  rw [getK_set_ne (Ne.symm h1), getK_set_ne (Ne.symm h2)]
  split
  · split
    · simp only [Except.map]
      exact congrArg Except.ok (writeDns_setK h3 v _ 1 cfg)
    · rfl
    · rfl
  · rfl

/-- The updates written by `writeDns`, outermost first. -/
def dnsUps : List String → Nat → List (String × Val)
  | [], _ => []
  | p :: ps, n => dnsUps ps (n + 1) ++ [("XX_dns_" ++ toString n, vStr p)]

theorem applyUpdates_append (a b : List (String × Val)) (cfg : RawConfig) :
    applyUpdates (a ++ b) cfg = applyUpdates a (applyUpdates b cfg) := by
  induction a with
  | nil => rfl
  | cons u a ih => rw [List.cons_append, applyUpdates, ih, applyUpdates]

theorem writeDns_eq_applyUpdates (ps : List String) (n : Nat) (cfg : RawConfig) :
    writeDns ps n cfg = applyUpdates (dnsUps ps n) cfg := by
  induction ps generalizing n cfg with
  | nil => rfl
  | cons p ps ih => rw [writeDns, ih, dnsUps, applyUpdates_append]; rfl

theorem dnsUps_keys (ps : List String) (n : Nat) :
    ∀ u ∈ dnsUps ps n, keysDN u.1 = true := by
  induction ps generalizing n with
  | nil => simp [dnsUps]
  | cons p ps ih =>
    intro u hu
    rw [dnsUps] at hu
    rcases List.mem_append.mp hu with h | h
    · exact ih (n + 1) u h
    · simp only [List.mem_singleton] at h
      subst h
      simp [keysDN, hasDns_dns]

theorem writes9_clp : Writes9 keysCL check_lines_password := by
  intro cfg d h
  unfold check_lines_password at h
  split at h
  · rename_i ls heq
    injection h with h2
    exact ⟨[("sip_lines", vLines (ls.map clearPw))], by simp [keysCL],
      by rw [← h2]; rfl⟩
  · exact absurd h (by simp)
  · exact absurd h (by simp)

theorem writes9_st : Writes9 keysST add_sip_transport := by
  intro cfg d h
  injection h with h2
  rcases stP_cases cfg with hc | ⟨t, hc⟩
  · exact ⟨[], by simp, by rw [← h2, hc]; rfl⟩
  · exact ⟨[("XX_sip_transport", vStr t)], by simp [keysST], by rw [← h2, hc]; rfl⟩

theorem writes9_tz : Writes9 keysTZ add_timezone := by
  intro cfg d h
  injection h with h2
  unfold add_timezoneP at h2
  split at h2
  · exact ⟨[("XX_timezone", vStr parisTZ)], by simp [keysTZ], by rw [← h2]; rfl⟩
  · exact ⟨[("timezone", vStr parisTZ)], by simp [keysTZ], by rw [← h2]; rfl⟩

theorem writes9_lo : Writes9 keysLO add_locale := by
  intro cfg d h
  injection h with h2
  rcases loP_cases cfg with hc | ⟨t, hc⟩
  · exact ⟨[], by simp, by rw [← h2, hc]; rfl⟩
  · exact ⟨[("XX_locale", vStr t)], by simp [keysLO], by rw [← h2, hc]; rfl⟩

theorem writes9_dt : Writes9 keysDT add_dtmf_mode := by
  intro cfg d h
  unfold add_dtmf_mode at h
  split at h
  · split at h
    · split at h
      · injection h with h2
        exact ⟨[("XX_dtmf_in_sip", _), ("XX_dtmf_in_rtp", _), ("XX_dtmf_in_audio", _)],
          by simp [keysDT], by rw [← h2]; rfl⟩
      · exact absurd h (by simp)
    · exact absurd h (by simp)
  · injection h with h2
    exact ⟨[], by simp, by rw [← h2]; rfl⟩

theorem writes9_dns : Writes9 keysDN add_dns := by
  intro cfg d h
  unfold add_dns at h
  split at h
  · split at h
    · rename_i ip heq
      injection h with h2
      refine ⟨dnsUps (ip.splitOn ".") 1, dnsUps_keys _ _, ?_⟩
      rw [← h2, writeDns_eq_applyUpdates]
    · exact absurd h (by simp)
    · exact absurd h (by simp)
  · injection h with h2
    exact ⟨[], by simp, by rw [← h2]; rfl⟩

/-! ### Disjointness of the six steps' key sets -/

theorem d9_cl_st : ∀ k, ¬(keysCL k = true ∧ keysST k = true) := by
  rintro k ⟨h1, h2⟩
  simp only [keysCL, beq_iff_eq] at h1
  subst h1
  exact absurd h2 (by decide)

theorem d9_cl_tz : ∀ k, ¬(keysCL k = true ∧ keysTZ k = true) := by
  rintro k ⟨h1, h2⟩
  simp only [keysCL, beq_iff_eq] at h1
  subst h1
  exact absurd h2 (by decide)

theorem d9_cl_lo : ∀ k, ¬(keysCL k = true ∧ keysLO k = true) := by
  rintro k ⟨h1, h2⟩
  simp only [keysCL, beq_iff_eq] at h1
  subst h1
  exact absurd h2 (by decide)

theorem d9_cl_dt : ∀ k, ¬(keysCL k = true ∧ keysDT k = true) := by
  rintro k ⟨h1, h2⟩
  simp only [keysCL, beq_iff_eq] at h1
  subst h1
  exact absurd h2 (by decide)

theorem d9_cl_dn : ∀ k, ¬(keysCL k = true ∧ keysDN k = true) := by
  rintro k ⟨h1, h2⟩
  simp only [keysCL, beq_iff_eq] at h1
  subst h1
  exact absurd h2 (by decide)

theorem d9_st_tz : ∀ k, ¬(keysST k = true ∧ keysTZ k = true) := by
  rintro k ⟨h1, h2⟩
  simp only [keysST, Bool.or_eq_true, beq_iff_eq] at h1
  rcases h1 with h1 | h1 <;> subst h1 <;> exact absurd h2 (by decide)

theorem d9_st_lo : ∀ k, ¬(keysST k = true ∧ keysLO k = true) := by
  rintro k ⟨h1, h2⟩
  simp only [keysST, Bool.or_eq_true, beq_iff_eq] at h1
  rcases h1 with h1 | h1 <;> subst h1 <;> exact absurd h2 (by decide)

theorem d9_st_dt : ∀ k, ¬(keysST k = true ∧ keysDT k = true) := by
  rintro k ⟨h1, h2⟩
  simp only [keysST, Bool.or_eq_true, beq_iff_eq] at h1
  rcases h1 with h1 | h1 <;> subst h1 <;> exact absurd h2 (by decide)

theorem d9_st_dn : ∀ k, ¬(keysST k = true ∧ keysDN k = true) := by
  rintro k ⟨h1, h2⟩
  simp only [keysST, Bool.or_eq_true, beq_iff_eq] at h1
  rcases h1 with h1 | h1 <;> subst h1 <;> exact absurd h2 (by decide)

theorem d9_tz_lo : ∀ k, ¬(keysTZ k = true ∧ keysLO k = true) := by
  rintro k ⟨h1, h2⟩
  simp only [keysTZ, Bool.or_eq_true, beq_iff_eq] at h1
  rcases h1 with h1 | h1 <;> subst h1 <;> exact absurd h2 (by decide)

theorem d9_tz_dt : ∀ k, ¬(keysTZ k = true ∧ keysDT k = true) := by
  rintro k ⟨h1, h2⟩
  simp only [keysTZ, Bool.or_eq_true, beq_iff_eq] at h1
  rcases h1 with h1 | h1 <;> subst h1 <;> exact absurd h2 (by decide)

theorem d9_tz_dn : ∀ k, ¬(keysTZ k = true ∧ keysDN k = true) := by
  rintro k ⟨h1, h2⟩
  simp only [keysTZ, Bool.or_eq_true, beq_iff_eq] at h1
  rcases h1 with h1 | h1 <;> subst h1 <;> exact absurd h2 (by decide)

theorem d9_lo_dt : ∀ k, ¬(keysLO k = true ∧ keysDT k = true) := by
  rintro k ⟨h1, h2⟩
  simp only [keysLO, Bool.or_eq_true, beq_iff_eq] at h1
  rcases h1 with h1 | h1 <;> subst h1 <;> exact absurd h2 (by decide)

theorem d9_lo_dn : ∀ k, ¬(keysLO k = true ∧ keysDN k = true) := by
  rintro k ⟨h1, h2⟩
  simp only [keysLO, Bool.or_eq_true, beq_iff_eq] at h1
  rcases h1 with h1 | h1 <;> subst h1 <;> exact absurd h2 (by decide)

theorem d9_dt_dn : ∀ k, ¬(keysDT k = true ∧ keysDN k = true) := by
  rintro k ⟨h1, h2⟩
  simp only [keysDT, Bool.or_eq_true, beq_iff_eq] at h1
  rcases h1 with ((h1 | h1) | h1) | h1 <;> subst h1 <;> exact absurd h2 (by decide)

/-- The six enrichment steps of `configure` named by claim C9, in
source order. -/
def enrichSteps : List (RawConfig → Except Err RawConfig) :=
  [check_lines_password, add_sip_transport, add_timezone, add_locale,
   add_dtmf_mode, add_dns]

/-- C9: any two of the six enrichment steps commute: applied in
either order to any raw config they produce the same final mapping
(or in both orders no mapping, when a step raises), because each
reads and writes keys disjoint from the other's. -/
theorem c9_steps_commute :
    ∀ f ∈ enrichSteps, ∀ g ∈ enrichSteps, ∀ cfg : RawConfig,
      ((f cfg) >>= g).toOption = ((g cfg) >>= f).toOption := by
  intro f hf g hg cfg
  simp only [enrichSteps, List.mem_cons, List.not_mem_nil, or_false] at hf hg
  rcases hf with rfl | rfl | rfl | rfl | rfl | rfl <;>
    rcases hg with rfl | rfl | rfl | rfl | rfl | rfl
  · rfl
  · exact comm_master d9_cl_st equiv9_clp equiv9_st writes9_clp writes9_st cfg
  · exact comm_master d9_cl_tz equiv9_clp equiv9_tz writes9_clp writes9_tz cfg
  · exact comm_master d9_cl_lo equiv9_clp equiv9_lo writes9_clp writes9_lo cfg
  · exact comm_master d9_cl_dt equiv9_clp equiv9_dt writes9_clp writes9_dt cfg
  · exact comm_master d9_cl_dn equiv9_clp equiv9_dns writes9_clp writes9_dns cfg
  · exact comm_master (fun k h => d9_cl_st k ⟨h.2, h.1⟩) equiv9_st equiv9_clp writes9_st writes9_clp cfg
  · rfl
  · exact comm_master d9_st_tz equiv9_st equiv9_tz writes9_st writes9_tz cfg
  · exact comm_master d9_st_lo equiv9_st equiv9_lo writes9_st writes9_lo cfg
  · exact comm_master d9_st_dt equiv9_st equiv9_dt writes9_st writes9_dt cfg
  · exact comm_master d9_st_dn equiv9_st equiv9_dns writes9_st writes9_dns cfg
  · exact comm_master (fun k h => d9_cl_tz k ⟨h.2, h.1⟩) equiv9_tz equiv9_clp writes9_tz writes9_clp cfg
  · exact comm_master (fun k h => d9_st_tz k ⟨h.2, h.1⟩) equiv9_tz equiv9_st writes9_tz writes9_st cfg
  · rfl
  · exact comm_master d9_tz_lo equiv9_tz equiv9_lo writes9_tz writes9_lo cfg
  · exact comm_master d9_tz_dt equiv9_tz equiv9_dt writes9_tz writes9_dt cfg
  · exact comm_master d9_tz_dn equiv9_tz equiv9_dns writes9_tz writes9_dns cfg
  · exact comm_master (fun k h => d9_cl_lo k ⟨h.2, h.1⟩) equiv9_lo equiv9_clp writes9_lo writes9_clp cfg
  · exact comm_master (fun k h => d9_st_lo k ⟨h.2, h.1⟩) equiv9_lo equiv9_st writes9_lo writes9_st cfg
  · exact comm_master (fun k h => d9_tz_lo k ⟨h.2, h.1⟩) equiv9_lo equiv9_tz writes9_lo writes9_tz cfg
  · rfl
  · exact comm_master d9_lo_dt equiv9_lo equiv9_dt writes9_lo writes9_dt cfg
  · exact comm_master d9_lo_dn equiv9_lo equiv9_dns writes9_lo writes9_dns cfg
  · exact comm_master (fun k h => d9_cl_dt k ⟨h.2, h.1⟩) equiv9_dt equiv9_clp writes9_dt writes9_clp cfg
  · exact comm_master (fun k h => d9_st_dt k ⟨h.2, h.1⟩) equiv9_dt equiv9_st writes9_dt writes9_st cfg
  · exact comm_master (fun k h => d9_tz_dt k ⟨h.2, h.1⟩) equiv9_dt equiv9_tz writes9_dt writes9_tz cfg
  · exact comm_master (fun k h => d9_lo_dt k ⟨h.2, h.1⟩) equiv9_dt equiv9_lo writes9_dt writes9_lo cfg
  · rfl
  · exact comm_master d9_dt_dn equiv9_dt equiv9_dns writes9_dt writes9_dns cfg
  · exact comm_master (fun k h => d9_cl_dn k ⟨h.2, h.1⟩) equiv9_dns equiv9_clp writes9_dns writes9_clp cfg
  · exact comm_master (fun k h => d9_st_dn k ⟨h.2, h.1⟩) equiv9_dns equiv9_st writes9_dns writes9_st cfg
  · exact comm_master (fun k h => d9_tz_dn k ⟨h.2, h.1⟩) equiv9_dns equiv9_tz writes9_dns writes9_tz cfg
  · exact comm_master (fun k h => d9_lo_dn k ⟨h.2, h.1⟩) equiv9_dns equiv9_lo writes9_dns writes9_lo cfg
  · exact comm_master (fun k h => d9_dt_dn k ⟨h.2, h.1⟩) equiv9_dns equiv9_dt writes9_dns writes9_dt cfg
  · rfl

/-- Witness for `c9_steps_commute` on a concrete pair and config. -/
theorem c9_steps_commute_witness :
    ((check_lines_password cfgC7) >>= add_timezone).toOption =
      ((add_timezone cfgC7) >>= check_lines_password).toOption :=
  c9_steps_commute check_lines_password (by simp [enrichSteps])
    add_timezone (by simp [enrichSteps]) cfgC7
